import Mathlib

/-!
# FactomCode `database/ldb`: entry store over a LevelDB engine

A shallow embedding of `database/ldb/leveldb.go` and `database/ldb/entry.go`.

* Byte slices are lists of naturals (each byte is a value below 256); Go `nil`
  pointers and `nil` errors are `none`.
* The LevelDB engine (`leveldb.DB`) is an external collaborator.  It is
  modelled by its documented contract: `Get` returns the stored value of a
  present key, `ErrNotFound` for an absent key, or an I/O error; `Write`
  applies a whole batch in order, or fails and applies nothing.
* Machine integers are `Int`/`Nat` with explicit wrap-around.
* The mutex `dbLock` is not modelled: every operation below is one sequential
  call.
-/

namespace ldb

/-- A Go `[]byte`. -/
abbrev ByteSlice := List Nat

/-- Errors that can reach the package: engine errors, filesystem errors and the
`fmt.Errorf("unsupported db version %v", dbversion)` of `openDB`. -/
inductive DbError where
  | notFound
  | io (code : Nat)
  | fs (code : Nat)
  | decode (code : Nat)
  | unsupportedVersion (version : Int)
  deriving DecidableEq, Repr

/-! ## Integer conversions -/

/-- Go conversion `byte(x)` of an `int8` constant. -/
def byteOfInt8 (x : Int) : Nat := (x % 256).toNat

/-- Go conversion `uint64(x)` of an `int64`. -/
def uint64OfInt64 (x : Int) : Nat := (x % 2 ^ 64).toNat

/-- Go conversion `int32(x)` of a `uint32`. -/
def int32OfUint32 (x : Nat) : Int :=
  if x % 2 ^ 32 < 2 ^ 31 then ((x % 2 ^ 32 : Nat) : Int) else ((x % 2 ^ 32 : Nat) : Int) - 2 ^ 32

/-- The values an `int64` can take. -/
def isInt64 (x : Int) : Prop := -(2 ^ 63) ≤ x ∧ x < 2 ^ 63

instance (x : Int) : Decidable (isInt64 x) := by
  unfold isInt64; exact inferInstance

/-- Go `binary.BigEndian.PutUint64(b, v)` on a fresh 8-byte slice:
`b[0] = byte(v >> 56)`, ..., `b[7] = byte(v)`. -/
def putUint64BE (v : Nat) : ByteSlice :=
  [(v >>> 56) % 256, (v >>> 48) % 256, (v >>> 40) % 256, (v >>> 32) % 256,
   (v >>> 24) % 256, (v >>> 16) % 256, (v >>> 8) % 256, v % 256]

/-- Go `bytes.Compare`, the comparer of the engine: `-1`, `0` or `1` by
byte-lexicographic order. -/
def bytesCompare : ByteSlice → ByteSlice → Int
  | [], [] => 0
  | [], _ :: _ => -1
  | _ :: _, [] => 1
  | a :: as, b :: bs =>
    if a < b then -1 else if b < a then 1 else bytesCompare as bs

/-! ## Table tags (`leveldb.go`, the `iota` block) -/

def TBL_ENTRY : Int := 0
def TBL_ENTRY_QUEUE : Int := 1
def TBL_DOCUMENT : Int := 2
def TBL_EB_ENTRY : Int := 3
def TBL_EB : Int := 4
def TBL_EB_QUEUE : Int := 5
def TBL_FB_ENTRY : Int := 6
def TBL_FB : Int := 7

def CurrentDBVersion : Int := 1

/-- The `notaryapi.Hash` struct: a byte slice. -/
structure Hash where
  Bytes : ByteSlice
  deriving DecidableEq, Repr

/-! ## Key schema (`entry.go`) -/

/-- Lines 24-25 and 55-56 of `entry.go`:
`[]byte{byte(TBL_ENTRY)}` followed by the hash bytes. -/
def entryKey (entrySha : Hash) : ByteSlice :=
  [byteOfInt8 TBL_ENTRY] ++ entrySha.Bytes

/-- Lines 30-37 of `entry.go`: table tag, chain id, big-endian timestamp
(`uint64(entry.TimeStamp())`), entry hash. -/
def queueKey (chainID : ByteSlice) (timeStamp : Int) (entrySha : Hash) : ByteSlice :=
  let key := [byteOfInt8 TBL_ENTRY_QUEUE]
  let key := key ++ chainID
  let binaryTimestamp := putUint64BE (uint64OfInt64 timeStamp)
  let key := key ++ binaryTimestamp
  key ++ entrySha.Bytes

/-- Lines 89-90 of `entry.go`; the tag `TBL_ENTRY_INFO` is declared outside the
two source files and is a parameter. -/
def entryInfoKey (TBL_ENTRY_INFO : Int) (entryHash : Hash) : ByteSlice :=
  [byteOfInt8 TBL_ENTRY_INFO] ++ entryHash.Bytes

/-! ## The engine -/

/-- One staged operation of a `leveldb.Batch`. -/
inductive BatchOp where
  | put (key value : ByteSlice)
  | delete (key : ByteSlice)
  deriving DecidableEq, Repr

/-- The engine `leveldb.DB`: its key/value contents, the fault (if any) its
reads and writes currently hit, and the log of keys passed to `Get`. -/
structure Engine where
  kv : List (ByteSlice × ByteSlice)
  readFault : Option DbError
  writeFault : Option DbError
  gets : List ByteSlice
  deriving DecidableEq, Repr

/-- Value stored under a key. -/
def kvGet (kv : List (ByteSlice × ByteSlice)) (key : ByteSlice) : Option ByteSlice :=
  match kv with
  | [] => none
  | (k, v) :: rest => if k = key then some v else kvGet rest key

/-- Remove a key. -/
def kvDelete (kv : List (ByteSlice × ByteSlice)) (key : ByteSlice) :
    List (ByteSlice × ByteSlice) :=
  match kv with
  | [] => []
  | (k, v) :: rest => if k = key then kvDelete rest key else (k, v) :: kvDelete rest key

/-- Store a value under a key, replacing any earlier one. -/
def kvPut (kv : List (ByteSlice × ByteSlice)) (key value : ByteSlice) :
    List (ByteSlice × ByteSlice) :=
  (key, value) :: kvDelete kv key

def applyOp (kv : List (ByteSlice × ByteSlice)) : BatchOp → List (ByteSlice × ByteSlice)
  | .put k v => kvPut kv k v
  | .delete k => kvDelete kv k

/-- Method `leveldb.DB.Get`: the read is logged; a fault gives `(nil, err)`, an absent
key gives `(nil, ErrNotFound)`, a present key gives its (non-nil) value. -/
def Engine.Get (e : Engine) (key : ByteSlice) : (Option ByteSlice × Option DbError) × Engine :=
  let e1 := { e with gets := e.gets ++ [key] }
  match e.readFault with
  | some err => ((none, some err), e1)
  | none =>
    match kvGet e.kv key with
    | some v => ((some v, none), e1)
    | none => ((none, some DbError.notFound), e1)

/-- Method `leveldb.DB.Write`: the batch is applied in order as one atomic unit, or the
write fails and nothing is applied. -/
def Engine.Write (e : Engine) (batch : List BatchOp) : Option DbError × Engine :=
  match e.writeFault with
  | some err => (some err, e)
  | none => (none, { e with kv := batch.foldl applyOp e.kv })

/-- The `LevelDb` struct, restricted to the fields the entry store uses. -/
structure LevelDb where
  lDb : Engine
  lbatch : Option (List BatchOp)
  deriving DecidableEq, Repr

/-! ## Declarations outside the two source files

`notaryapi` (the domain types and their marshalling), the sibling fetchers
`FetchEBInfoByHash` / `FetchFBBatchByHash` and the constants `TBL_ENTRY_INFO`
and `STATUS_IN_QUEUE` are used by `entry.go` but declared elsewhere.  They are
parameters of the model. -/

/-- What `entry.go` uses from outside: `Entry.TimeStamp()`, the two
`UnmarshalBinary` methods (the state of the freshly allocated object after the
call, and the error the call reports), the link fields `EntryInfo.EBHash` and
`EBInfo.FBHash`, the two sibling fetchers and the two constants. -/
structure Deps (Entry EntryInfo EBInfo FBBatch : Type) where
  TimeStamp : Entry → Int
  unmarshalEntry : ByteSlice → Entry × Option DbError
  unmarshalEntryInfo : ByteSlice → EntryInfo × Option DbError
  EBHash : EntryInfo → Hash
  FBHash : EBInfo → Hash
  FetchEBInfoByHash : LevelDb → Hash → (Option EBInfo × Option DbError) × LevelDb
  FetchFBBatchByHash : LevelDb → Hash → (Option FBBatch × Option DbError) × LevelDb
  TBL_ENTRY_INFO : Int
  STATUS_IN_QUEUE : Int

/-- The `notaryapi.EntryInfoBranch` struct. -/
structure EntryInfoBranch (EntryInfo EBInfo FBBatch : Type) where
  EntryHash : Hash
  EntryInfo : Option EntryInfo
  EBInfo : Option EBInfo
  FBBatch : Option FBBatch
  deriving DecidableEq, Repr

/-- The batch `InsertEntryAndQueue` hands to `Write` (lines 19-39 of
`entry.go`): the batch already held by the handle (a fresh one if `nil`),
then the entry put, then the queue put. -/
def stagedBatch {Entry EntryInfo EBInfo FBBatch : Type} (d : Deps Entry EntryInfo EBInfo FBBatch) (db : LevelDb) (entrySha : Hash)
    (binaryEntry : ByteSlice) (entry : Entry) (chainID : ByteSlice) : List BatchOp :=
  let lbatch := match db.lbatch with
    | none => []
    | some b => b
  let lbatch := lbatch ++ [BatchOp.put (entryKey entrySha) binaryEntry]
  lbatch ++ [BatchOp.put (queueKey chainID (d.TimeStamp entry) entrySha)
    [byteOfInt8 d.STATUS_IN_QUEUE]]

/-- Method `InsertEntryAndQueue` (lines 15-48 of `entry.go`).  The deferred
`db.lbatch.Reset()` leaves an empty batch on every path. -/
def InsertEntryAndQueue {Entry EntryInfo EBInfo FBBatch : Type} (d : Deps Entry EntryInfo EBInfo FBBatch) (db : LevelDb)
    (entrySha : Hash) (binaryEntry : ByteSlice) (entry : Entry) (chainID : ByteSlice) :
    Option DbError × LevelDb :=
  let lbatch := stagedBatch d db entrySha binaryEntry entry chainID
  let (err, lDb) := db.lDb.Write lbatch
  match err with
  | some e => (some e, { lDb := lDb, lbatch := some [] })
  | none => (none, { lDb := lDb, lbatch := some [] })

/-- Method `FetchEntryByHash` (lines 51-64 of `entry.go`): the error of `Get` and the
error of `UnmarshalBinary` are both dropped; the function ends in
`return entry, nil`. -/
def FetchEntryByHash {Entry EntryInfo EBInfo FBBatch : Type} (d : Deps Entry EntryInfo EBInfo FBBatch) (db : LevelDb)
    (entrySha : Hash) : (Option Entry × Option DbError) × LevelDb :=
  let key := [byteOfInt8 TBL_ENTRY] ++ entrySha.Bytes
  let ((data, _err), lDb) := db.lDb.Get key
  let entry := match data with
    | some bytes => some (d.unmarshalEntry bytes).1
    | none => none
  ((entry, none), { db with lDb := lDb })

/-- Method `FetchEntryInfoByHash` (lines 85-98 of `entry.go`). -/
def FetchEntryInfoByHash {Entry EntryInfo EBInfo FBBatch : Type} (d : Deps Entry EntryInfo EBInfo FBBatch) (db : LevelDb)
    (entryHash : Hash) : (Option EntryInfo × Option DbError) × LevelDb :=
  let key := [byteOfInt8 d.TBL_ENTRY_INFO] ++ entryHash.Bytes
  let ((data, _err), lDb) := db.lDb.Get key
  let entryInfo := match data with
    | some bytes => some (d.unmarshalEntryInfo bytes).1
    | none => none
  ((entryInfo, none), { db with lDb := lDb })

/-- Method `FetchEntryInfoBranchByHash` (lines 68-82 of `entry.go`). -/
def FetchEntryInfoBranchByHash {Entry EntryInfo EBInfo FBBatch : Type} (d : Deps Entry EntryInfo EBInfo FBBatch) (db : LevelDb)
    (entryHash : Hash) :
    (EntryInfoBranch EntryInfo EBInfo FBBatch × Option DbError) × LevelDb :=
  let ((entryInfo, _), db1) := FetchEntryInfoByHash d db entryHash
  let (ebInfo, db2) := match entryInfo with
    | some ei =>
      let ((eb, _), db2) := d.FetchEBInfoByHash db1 (d.EBHash ei)
      (eb, db2)
    | none => (none, db1)
  let (fbBatch, db3) := match ebInfo with
    | some eb =>
      let ((fb, _), db3) := d.FetchFBBatchByHash db2 (d.FBHash eb)
      (fb, db3)
    | none => (none, db2)
  (({ EntryHash := entryHash, EntryInfo := entryInfo, EBInfo := ebInfo, FBBatch := fbBatch },
    none), db3)

/-! ## Opening the store (`leveldb.go`) -/

/-- The fields of `opt.Options` that `openDB` sets. -/
structure Options where
  BlockCache : Bool
  MaxOpenFiles : Int
  NoCompression : Bool
  deriving DecidableEq, Repr

/-- A call `openDB` makes to the operating system or to the engine. -/
inductive OsCall where
  | Mkdir (path : String)
  | Stat (path : String)
  | Open (path : String)
  | OpenFile (path : String) (opts : Options)
  | Create (path : String)
  | Write (path : String) (version : Int)
  deriving DecidableEq, Repr

/-- Outcomes of the calls `openDB` makes: `Open` gives the contents of the file
when it can be opened. -/
structure Os where
  Mkdir : String → Option DbError
  Stat : String → Option DbError
  Open : String → Option ByteSlice
  OpenFile : String → Options → Except DbError Engine
  Create : String → Option DbError
  Write : String → Int → Option DbError

/-- Go `binary.Read(fi, binary.LittleEndian, &dbversion)` for an `int32`:
four bytes are needed, an error is reported when the file is shorter. -/
def binaryReadInt32LE : ByteSlice → Option Int
  | b0 :: b1 :: b2 :: b3 :: _ =>
    some (int32OfUint32 (b0 % 256 + (b1 % 256) * 2 ^ 8 + (b2 % 256) * 2 ^ 16 + (b3 % 256) * 2 ^ 24))
  | _ => none

/-- Lines 112-127 of `leveldb.go`: the version `openDB` works with and whether
a version file has to be written.  `^0` is `-1`; with no version file and no
`create` the variable keeps its zero value. -/
def readVersion (os : Os) (dbpath : String) (create : Bool) : Int × Bool :=
  let verfile := dbpath ++ ".ver"
  match os.Open verfile with
  | some contents =>
    match binaryReadInt32LE contents with
    | some v => (v, false)
    | none => (-1, false)
  | none => if create then (CurrentDBVersion, true) else (0, false)

/-- Lines 99-110 of `leveldb.go`: `os.Mkdir` when creating, `os.Stat`
otherwise. -/
def dirStep (os : Os) (dbpath : String) (create : Bool) : Option DbError × List OsCall :=
  if create then (os.Mkdir dbpath, [OsCall.Mkdir dbpath])
  else (os.Stat dbpath, [OsCall.Stat dbpath])

/-- Lines 129-144 of `leveldb.go`: the options for a supported version. -/
def versionOptions (dbversion : Int) : Option Options :=
  if dbversion = 0 then some { BlockCache := false, MaxOpenFiles := 0, NoCompression := false }
  else if dbversion = 1 then some { BlockCache := true, MaxOpenFiles := 256, NoCompression := true }
  else none

/-- Function `openDB` (lines 83-168 of `leveldb.go`): the handle (set by the deferred
function only when `err == nil`), the error, and the calls made in order. -/
def openDB (os : Os) (dbpath : String) (create : Bool) :
    (Option LevelDb × Option DbError) × List OsCall :=
  let (dirErr, calls) := dirStep os dbpath create
  match dirErr with
  | some e => ((none, some e), calls)
  | none =>
    let verfile := dbpath ++ ".ver"
    let (dbversion, needVersionFile) := readVersion os dbpath create
    let calls := calls ++ [OsCall.Open verfile]
    match versionOptions dbversion with
    | none => ((none, some (DbError.unsupportedVersion dbversion)), calls)
    | some opts =>
      let calls := calls ++ [OsCall.OpenFile dbpath opts]
      match os.OpenFile dbpath opts with
      | .error e => ((none, some e), calls)
      | .ok tlDb =>
        if needVersionFile then
          let calls := calls ++ [OsCall.Create verfile]
          match os.Create verfile with
          | some ferr => ((none, some ferr), calls)
          | none =>
            let calls := calls ++ [OsCall.Write verfile dbversion]
            match os.Write verfile dbversion with
            | some e => ((none, some e), calls)
            | none => ((some { lDb := tlDb, lbatch := none }, none), calls)
        else ((some { lDb := tlDb, lbatch := none }, none), calls)

/-- Function `OpenLevelDB` (lines 78-80 of `leveldb.go`). -/
def OpenLevelDB (os : Os) (dbpath : String) (create : Bool) :
    (Option LevelDb × Option DbError) × List OsCall :=
  openDB os dbpath create

/-- Whether a call is the engine open `leveldb.OpenFile`. -/
def OsCall.isOpenFile : OsCall → Bool
  | .OpenFile _ _ => true
  | _ => false

/-! ## The key schema as the specification words it -/

/-- The big-endian encoding of a number on a given count of bytes, most
significant byte first (the specification's fixed-width big-endian
encoding). -/
def bigEndianBytes : Nat → Nat → ByteSlice
  | 0, _ => []
  | n + 1, v => bigEndianBytes n (v / 256) ++ [v % 256]

/-- The specification's `bigEndianUint64`. -/
def bigEndianUint64 (v : Nat) : ByteSlice := bigEndianBytes 8 v

/-- A logical key of the two tables `InsertEntryAndQueue` writes: an entry key
identified by a hash, or a queue key identified by chain id, timestamp and
entry hash. -/
inductive LogicalKey where
  | entry (entryHash : Hash)
  | queue (chainID : ByteSlice) (timeStamp : Int) (entryHash : Hash)
  deriving DecidableEq, Repr

/-- The byte key `InsertEntryAndQueue` builds for a logical key. -/
def LogicalKey.encode : LogicalKey → ByteSlice
  | .entry h => entryKey h
  | .queue c t h => queueKey c t h

/-- The timestamp of a logical key, when it has one, is an `int64`. -/
def LogicalKey.wellTyped : LogicalKey → Prop
  | .entry _ => True
  | .queue _ t _ => isInt64 t

instance (k : LogicalKey) : Decidable k.wellTyped := by
  cases k <;> unfold LogicalKey.wellTyped <;> exact inferInstance

/-- Length of the chain id of a logical key (zero for an entry key). -/
def LogicalKey.chainLen : LogicalKey → Nat
  | .entry _ => 0
  | .queue c _ _ => c.length

/-- A concrete instance of the outside declarations: every domain object is
kept as its raw bytes, the timestamp of an entry is its first byte,
`UnmarshalBinary` rejects the empty slice and slices starting with `0xFF`, the
sibling fetchers read tables 8 and 9, and `TBL_ENTRY_INFO` is 10. -/
def rawDeps : Deps ByteSlice ByteSlice ByteSlice ByteSlice where
  TimeStamp := fun e => (e.headD 0 : Nat)
  unmarshalEntry := fun b =>
    (b, if b.headD 255 = 255 then some (DbError.decode 1) else none)
  unmarshalEntryInfo := fun b =>
    (b, if b.headD 255 = 255 then some (DbError.decode 2) else none)
  EBHash := fun ei => { Bytes := ei }
  FBHash := fun eb => { Bytes := eb }
  FetchEBInfoByHash := fun db h =>
    let r := db.lDb.Get ([8] ++ h.Bytes)
    ((r.1.1, none), { db with lDb := r.2 })
  FetchFBBatchByHash := fun db h =>
    let r := db.lDb.Get ([9] ++ h.Bytes)
    ((r.1.1, none), { db with lDb := r.2 })
  TBL_ENTRY_INFO := 10
  STATUS_IN_QUEUE := 0

/-- An empty engine without faults. -/
def emptyEngine : Engine := { kv := [], readFault := none, writeFault := none, gets := [] }

/-- A freshly opened handle on an empty engine. -/
def emptyDb : LevelDb := { lDb := emptyEngine, lbatch := none }

/-! ## Example stores -/

/-- Thirty-two bytes `0xAB`. -/
def hashAB : Hash := { Bytes := List.replicate 32 0xAB }

/-- Thirty-two bytes `0x01`. -/
def chain01 : ByteSlice := List.replicate 32 1

/-- A handle whose engine fails every write with an I/O error. -/
def writeFailingDb : LevelDb :=
  { lDb := { kv := [(entryKey hashAB, [9])], readFault := none,
             writeFault := some (DbError.io 5), gets := [] },
    lbatch := none }

/-- A handle whose engine fails every read with an I/O error. -/
def readFailingDb : LevelDb :=
  { lDb := { kv := [(entryKey hashAB, [1, 2, 3]), (entryInfoKey 10 hashAB, [4, 5])],
             readFault := some (DbError.io 5), writeFault := none, gets := [] },
    lbatch := none }

/-- A handle whose entry and entry-info records for `hashAB` hold bytes that
`rawDeps` fails to decode. -/
def corruptDb : LevelDb :=
  { lDb := { kv := [(entryKey hashAB, [255, 0]), (entryInfoKey 10 hashAB, [255, 1])],
             readFault := none, writeFault := none, gets := [] },
    lbatch := none }

/-- A handle holding the same undecodable bytes as `corruptDb` whose engine
fails every read with an I/O error. -/
def corruptReadFailingDb : LevelDb :=
  { lDb := { kv := [(entryKey hashAB, [255, 0]), (entryInfoKey 10 hashAB, [255, 1])],
             readFault := some (DbError.io 5), writeFault := none, gets := [] },
    lbatch := none }

/-- An operating system where the directory exists, the version file of
`/data/factom` holds the little-endian 32-bit value 99 and the engine would
open. -/
def osVersion99 : Os where
  Mkdir := fun _ => none
  Stat := fun _ => none
  Open := fun p => if p = "/data/factom.ver" then some [99, 0, 0, 0] else none
  OpenFile := fun _ _ => .ok emptyEngine
  Create := fun _ => none
  Write := fun _ _ => none

/-! ## Lemmas on the key/value contents -/

theorem kvGet_kvDelete_ne (kv : List (ByteSlice × ByteSlice)) (k k' : ByteSlice)
    (h : k ≠ k') : kvGet (kvDelete kv k) k' = kvGet kv k' := by
  induction kv with
  | nil => rfl
  | cons p rest ih =>
    obtain ⟨a, b⟩ := p
    by_cases hak : a = k
    · have hne : a ≠ k' := by rw [hak]; exact h
      simp [kvDelete, kvGet, hak, ih, h]
    · by_cases hak' : a = k'
      · subst hak'
        simp [kvDelete, kvGet, hak]
      · simp [kvDelete, kvGet, hak, hak', ih]

theorem kvGet_kvPut_self (kv : List (ByteSlice × ByteSlice)) (k v : ByteSlice) :
    kvGet (kvPut kv k v) k = some v := by
  simp [kvPut, kvGet]

theorem kvGet_kvPut_ne (kv : List (ByteSlice × ByteSlice)) (k k' v : ByteSlice)
    (h : k ≠ k') : kvGet (kvPut kv k v) k' = kvGet kv k' := by
  simp [kvPut, kvGet, h, kvGet_kvDelete_ne]

theorem entryKey_ne_queueKey (h h' : Hash) (c : ByteSlice) (t : Int) :
    entryKey h ≠ queueKey c t h' := by
  simp [entryKey, queueKey, byteOfInt8, TBL_ENTRY, TBL_ENTRY_QUEUE]

theorem kv_after_stagedBatch {Entry EntryInfo EBInfo FBBatch : Type}
    (d : Deps Entry EntryInfo EBInfo FBBatch) (db : LevelDb) (entrySha : Hash)
    (binaryEntry : ByteSlice) (entry : Entry) (chainID : ByteSlice)
    (kv : List (ByteSlice × ByteSlice)) :
    kvGet ((stagedBatch d db entrySha binaryEntry entry chainID).foldl applyOp kv)
        (entryKey entrySha) = some binaryEntry ∧
    kvGet ((stagedBatch d db entrySha binaryEntry entry chainID).foldl applyOp kv)
        (queueKey chainID (d.TimeStamp entry) entrySha) = some [byteOfInt8 d.STATUS_IN_QUEUE] := by
  simp only [stagedBatch, List.foldl_append, List.foldl_cons, List.foldl_nil, applyOp]
  constructor
  · rw [kvGet_kvPut_ne _ _ _ _ (Ne.symm (entryKey_ne_queueKey _ _ _ _)), kvGet_kvPut_self]
  · rw [kvGet_kvPut_self]

theorem InsertEntryAndQueue_eq {Entry EntryInfo EBInfo FBBatch : Type}
    (d : Deps Entry EntryInfo EBInfo FBBatch) (db : LevelDb) (entrySha : Hash)
    (binaryEntry : ByteSlice) (entry : Entry) (chainID : ByteSlice) :
    InsertEntryAndQueue d db entrySha binaryEntry entry chainID =
      match db.lDb.writeFault with
      | some e => (some e, ⟨db.lDb, some []⟩)
      | none => (none,
          ⟨⟨(stagedBatch d db entrySha binaryEntry entry chainID).foldl applyOp db.lDb.kv,
            db.lDb.readFault, db.lDb.writeFault, db.lDb.gets⟩, some []⟩) := by
  unfold InsertEntryAndQueue Engine.Write
  rcases db with ⟨⟨kv, rf, wf, gets⟩, lb⟩
  cases wf <;> rfl

theorem FetchEntryByHash_eq {Entry EntryInfo EBInfo FBBatch : Type}
    (d : Deps Entry EntryInfo EBInfo FBBatch) (db : LevelDb) (entrySha : Hash) :
    FetchEntryByHash d db entrySha =
      ((match db.lDb.readFault with
        | some _ => none
        | none => (kvGet db.lDb.kv (entryKey entrySha)).map (fun b => (d.unmarshalEntry b).1),
        none),
       ⟨⟨db.lDb.kv, db.lDb.readFault, db.lDb.writeFault, db.lDb.gets ++ [entryKey entrySha]⟩,
        db.lbatch⟩) := by
  unfold FetchEntryByHash Engine.Get entryKey
  rcases db with ⟨⟨kv, rf, wf, gets⟩, lb⟩
  cases rf with
  | some e => rfl
  | none =>
    simp only []
    cases h' : kvGet kv ([byteOfInt8 TBL_ENTRY] ++ entrySha.Bytes) <;> rfl

theorem FetchEntryInfoByHash_eq {Entry EntryInfo EBInfo FBBatch : Type}
    (d : Deps Entry EntryInfo EBInfo FBBatch) (db : LevelDb) (entryHash : Hash) :
    FetchEntryInfoByHash d db entryHash =
      ((match db.lDb.readFault with
        | some _ => none
        | none => (kvGet db.lDb.kv (entryInfoKey d.TBL_ENTRY_INFO entryHash)).map
            (fun b => (d.unmarshalEntryInfo b).1),
        none),
       ⟨⟨db.lDb.kv, db.lDb.readFault, db.lDb.writeFault,
         db.lDb.gets ++ [entryInfoKey d.TBL_ENTRY_INFO entryHash]⟩, db.lbatch⟩) := by
  unfold FetchEntryInfoByHash Engine.Get entryInfoKey
  rcases db with ⟨⟨kv, rf, wf, gets⟩, lb⟩
  cases rf with
  | some e => rfl
  | none =>
    simp only []
    cases h' : kvGet kv ([byteOfInt8 d.TBL_ENTRY_INFO] ++ entryHash.Bytes) <;> rfl

theorem FetchEntryInfoBranchByHash_of_none {Entry EntryInfo EBInfo FBBatch : Type}
    (d : Deps Entry EntryInfo EBInfo FBBatch) (db : LevelDb) (entryHash : Hash)
    (h : (FetchEntryInfoByHash d db entryHash).1.1 = none) :
    FetchEntryInfoBranchByHash d db entryHash =
      ((⟨entryHash, none, none, none⟩, none), (FetchEntryInfoByHash d db entryHash).2) := by
  unfold FetchEntryInfoBranchByHash
  generalize FetchEntryInfoByHash d db entryHash = r at h
  rcases r with ⟨⟨ei, err⟩, db1⟩
  simp only at h
  subst h
  rfl

theorem Engine.Get_data_none_of_error (e : Engine) (key : ByteSlice) (err : DbError)
    (h : (e.Get key).1.2 = some err) : (e.Get key).1.1 = none := by
  unfold Engine.Get at h ⊢
  rcases e with ⟨kv, rf, wf, gets⟩
  cases rf with
  | some e' => rfl
  | none =>
    simp only [] at h ⊢
    cases h' : kvGet kv key with
    | none => rfl
    | some v => rw [h'] at h; simp at h

theorem Engine.Get_data_of_no_error (e : Engine) (key : ByteSlice)
    (h : (e.Get key).1.2 = none) : (e.Get key).1.1 = kvGet e.kv key := by
  unfold Engine.Get at h ⊢
  rcases e with ⟨kv, rf, wf, gets⟩
  cases rf with
  | some e' => simp at h
  | none =>
    simp only [] at h ⊢
    cases h' : kvGet kv key with
    | none => simp [h'] at h
    | some v => rfl

theorem FetchEntryByHash_result {Entry EntryInfo EBInfo FBBatch : Type}
    (d : Deps Entry EntryInfo EBInfo FBBatch) (db : LevelDb) (entrySha : Hash) :
    (FetchEntryByHash d db entrySha).1 =
      (((db.lDb.Get (entryKey entrySha)).1.1).map (fun b => (d.unmarshalEntry b).1), none) := by
  rw [FetchEntryByHash_eq]
  unfold Engine.Get
  rcases db with ⟨⟨kv, rf, wf, gets⟩, lb⟩
  cases rf with
  | some e => rfl
  | none =>
    simp only []
    cases h' : kvGet kv (entryKey entrySha) <;> rfl

theorem FetchEntryInfoByHash_result {Entry EntryInfo EBInfo FBBatch : Type}
    (d : Deps Entry EntryInfo EBInfo FBBatch) (db : LevelDb) (entryHash : Hash) :
    (FetchEntryInfoByHash d db entryHash).1 =
      (((db.lDb.Get (entryInfoKey d.TBL_ENTRY_INFO entryHash)).1.1).map
        (fun b => (d.unmarshalEntryInfo b).1), none) := by
  rw [FetchEntryInfoByHash_eq]
  unfold Engine.Get
  rcases db with ⟨⟨kv, rf, wf, gets⟩, lb⟩
  cases rf with
  | some e => rfl
  | none =>
    simp only []
    cases h' : kvGet kv (entryInfoKey d.TBL_ENTRY_INFO entryHash) <;> rfl

/-! ## Lemmas on the key encoding -/

theorem putUint64BE_eq_bigEndianUint64 (v : Nat) : putUint64BE v = bigEndianUint64 v := by
  simp only [putUint64BE, bigEndianUint64, bigEndianBytes, Nat.shiftRight_eq_div_pow,
    List.nil_append, List.cons_append, List.cons.injEq, and_true]
  refine ⟨?_, ?_, ?_, ?_, ?_, ?_⟩ <;> omega

theorem putUint64BE_length (v : Nat) : (putUint64BE v).length = 8 := rfl

theorem putUint64BE_injective (u v : Nat) (hu : u < 2 ^ 64) (hv : v < 2 ^ 64)
    (h : putUint64BE u = putUint64BE v) : u = v := by
  simp only [putUint64BE, Nat.shiftRight_eq_div_pow, List.cons.injEq, and_true] at h
  obtain ⟨h0, h1, h2, h3, h4, h5, h6, h7⟩ := h
  omega

theorem uint64OfInt64_lt (t : Int) : uint64OfInt64 t < 2 ^ 64 := by
  unfold uint64OfInt64
  omega

theorem uint64OfInt64_injective (s t : Int) (hs : isInt64 s) (ht : isInt64 t)
    (h : uint64OfInt64 s = uint64OfInt64 t) : s = t := by
  unfold uint64OfInt64 at h
  unfold isInt64 at hs ht
  omega

theorem uint64OfInt64_lt_of_same_sign (s t : Int) (hs : isInt64 s) (ht : isInt64 t)
    (hlt : s < t) (hsign : 0 ≤ s ∨ t < 0) : uint64OfInt64 s < uint64OfInt64 t := by
  unfold uint64OfInt64
  unfold isInt64 at hs ht
  omega

theorem bytesCompare_append_left (p a b : ByteSlice) :
    bytesCompare (p ++ a) (p ++ b) = bytesCompare a b := by
  induction p with
  | nil => rfl
  | cons x xs ih => simp [bytesCompare, ih]

theorem bytesCompare_bigEndianBytes_lt (n : Nat) :
    ∀ (u v : Nat) (x y : ByteSlice), u < v → v < 256 ^ n →
      bytesCompare (bigEndianBytes n u ++ x) (bigEndianBytes n v ++ y) = -1 := by
  induction n with
  | zero =>
    intro u v x y huv hv
    simp at hv
    omega
  | succ n ih =>
    intro u v x y huv hv
    simp only [bigEndianBytes, List.append_assoc, List.singleton_append]
    have hv' : v / 256 < 256 ^ n := by
      rw [Nat.div_lt_iff_lt_mul (by norm_num)]
      rw [pow_succ] at hv
      exact hv
    rcases Nat.lt_or_ge (u / 256) (v / 256) with hlt | hge
    · exact ih _ _ _ _ hlt hv'
    · have heq : u / 256 = v / 256 := by omega
      rw [heq, bytesCompare_append_left]
      have hmod : u % 256 < v % 256 := by omega
      simp [bytesCompare, hmod]

theorem bytesCompare_putUint64BE_lt (u v : Nat) (x y : ByteSlice) (huv : u < v)
    (hv : v < 2 ^ 64) : bytesCompare (putUint64BE u ++ x) (putUint64BE v ++ y) = -1 := by
  rw [putUint64BE_eq_bigEndianUint64, putUint64BE_eq_bigEndianUint64]
  exact bytesCompare_bigEndianBytes_lt 8 u v x y huv (by norm_num; omega)

theorem queueKey_injective (c c' : ByteSlice) (t t' : Int) (h h' : Hash)
    (ht : isInt64 t) (ht' : isInt64 t') (hlen : c.length = c'.length)
    (heq : queueKey c t h = queueKey c' t' h') : c = c' ∧ t = t' ∧ h = h' := by
  simp only [queueKey, List.append_assoc] at heq
  obtain ⟨hc, hrest⟩ := List.append_inj (List.append_cancel_left heq) hlen
  obtain ⟨hts, hh⟩ := List.append_inj hrest (by simp [putUint64BE_length])
  refine ⟨hc, ?_, ?_⟩
  · exact uint64OfInt64_injective t t' ht ht'
      (putUint64BE_injective _ _ (uint64OfInt64_lt t) (uint64OfInt64_lt t') hts)
  · cases h; cases h'; simp only at hh; rw [hh]

theorem kv_after_InsertEntryAndQueue {Entry EntryInfo EBInfo FBBatch : Type}
    (d : Deps Entry EntryInfo EBInfo FBBatch) (db : LevelDb) (entrySha : Hash)
    (binaryEntry : ByteSlice) (entry : Entry) (chainID : ByteSlice)
    (hok : (InsertEntryAndQueue d db entrySha binaryEntry entry chainID).1 = none) :
    kvGet (InsertEntryAndQueue d db entrySha binaryEntry entry chainID).2.lDb.kv
        (entryKey entrySha) = some binaryEntry ∧
    kvGet (InsertEntryAndQueue d db entrySha binaryEntry entry chainID).2.lDb.kv
        (queueKey chainID (d.TimeStamp entry) entrySha) =
      some [byteOfInt8 d.STATUS_IN_QUEUE] ∧
    (InsertEntryAndQueue d db entrySha binaryEntry entry chainID).2.lDb.readFault =
      db.lDb.readFault := by
  rw [InsertEntryAndQueue_eq] at hok ⊢
  cases h : db.lDb.writeFault with
  | some e => rw [h] at hok; simp at hok
  | none =>
    have hkv := kv_after_stagedBatch d db entrySha binaryEntry entry chainID db.lDb.kv
    exact ⟨hkv.1, hkv.2, rfl⟩

theorem bytesCompare_bigEndianBytes_gt (n : Nat) :
    ∀ (u v : Nat) (x y : ByteSlice), v < u → u < 256 ^ n →
      bytesCompare (bigEndianBytes n u ++ x) (bigEndianBytes n v ++ y) = 1 := by
  induction n with
  | zero =>
    intro u v x y huv hu
    simp at hu
    omega
  | succ n ih =>
    intro u v x y huv hu
    simp only [bigEndianBytes, List.append_assoc, List.singleton_append]
    have hu' : u / 256 < 256 ^ n := by
      rw [Nat.div_lt_iff_lt_mul (by norm_num)]
      rw [pow_succ] at hu
      exact hu
    rcases Nat.lt_or_ge (v / 256) (u / 256) with hlt | hge
    · exact ih _ _ _ _ hlt hu'
    · have heq : u / 256 = v / 256 := by omega
      rw [heq, bytesCompare_append_left]
      have hmod : v % 256 < u % 256 := by omega
      have hnot : ¬ u % 256 < v % 256 := by omega
      simp [bytesCompare, hmod, hnot]

theorem bytesCompare_putUint64BE_gt (u v : Nat) (x y : ByteSlice) (hvu : v < u)
    (hu : u < 2 ^ 64) : bytesCompare (putUint64BE u ++ x) (putUint64BE v ++ y) = 1 := by
  rw [putUint64BE_eq_bigEndianUint64, putUint64BE_eq_bigEndianUint64]
  exact bytesCompare_bigEndianBytes_gt 8 u v x y hvu (by norm_num; omega)

theorem uint64OfInt64_gt_of_sign_change (s t : Int) (hs : isInt64 s) (ht : isInt64 t)
    (hneg : s < 0) (hpos : 0 ≤ t) : uint64OfInt64 t < uint64OfInt64 s := by
  unfold uint64OfInt64
  unfold isInt64 at hs ht
  omega

/-! ## C1: atomic pairing -/

/-- C1: when `InsertEntryAndQueue` returns no error the store holds the entry
key (with the payload) and the queue key (with the status byte); when it
returns an error the engine is exactly as before the call. -/
theorem InsertEntryAndQueue_atomic_pairing {Entry EntryInfo EBInfo FBBatch : Type}
    (d : Deps Entry EntryInfo EBInfo FBBatch) (db : LevelDb) (entrySha : Hash)
    (binaryEntry : ByteSlice) (entry : Entry) (chainID : ByteSlice) :
    ((InsertEntryAndQueue d db entrySha binaryEntry entry chainID).1 = none →
      kvGet (InsertEntryAndQueue d db entrySha binaryEntry entry chainID).2.lDb.kv
          (entryKey entrySha) = some binaryEntry ∧
      kvGet (InsertEntryAndQueue d db entrySha binaryEntry entry chainID).2.lDb.kv
          (queueKey chainID (d.TimeStamp entry) entrySha) =
        some [byteOfInt8 d.STATUS_IN_QUEUE]) ∧
    (∀ e, (InsertEntryAndQueue d db entrySha binaryEntry entry chainID).1 = some e →
      (InsertEntryAndQueue d db entrySha binaryEntry entry chainID).2.lDb = db.lDb) := by
  refine ⟨fun hok => ?_, fun e he => ?_⟩
  · have hkv := kv_after_InsertEntryAndQueue d db entrySha binaryEntry entry chainID hok
    exact ⟨hkv.1, hkv.2.1⟩
  · rw [InsertEntryAndQueue_eq] at he ⊢
    cases h : db.lDb.writeFault with
    | some e' => rfl
    | none => rw [h] at he; simp at he

/-- C1, at concrete inputs: a successful insert into the empty store leaves
both keys; a failed insert leaves the engine as it was. -/
theorem InsertEntryAndQueue_atomic_pairing_witness :
    (InsertEntryAndQueue rawDeps emptyDb hashAB [1, 2, 3] [7] chain01).1 = none ∧
    (kvGet (InsertEntryAndQueue rawDeps emptyDb hashAB [1, 2, 3] [7] chain01).2.lDb.kv
        (entryKey hashAB) = some [1, 2, 3] ∧
      kvGet (InsertEntryAndQueue rawDeps emptyDb hashAB [1, 2, 3] [7] chain01).2.lDb.kv
        (queueKey chain01 (rawDeps.TimeStamp [7]) hashAB) =
        some [byteOfInt8 rawDeps.STATUS_IN_QUEUE]) ∧
    (InsertEntryAndQueue rawDeps writeFailingDb hashAB [1, 2, 3] [7] chain01).1 =
      some (DbError.io 5) ∧
    (InsertEntryAndQueue rawDeps writeFailingDb hashAB [1, 2, 3] [7] chain01).2.lDb =
      writeFailingDb.lDb :=
  ⟨rfl,
   (InsertEntryAndQueue_atomic_pairing rawDeps emptyDb hashAB [1, 2, 3] [7] chain01).1 rfl,
   rfl,
   (InsertEntryAndQueue_atomic_pairing rawDeps writeFailingDb hashAB [1, 2, 3] [7] chain01).2
     (DbError.io 5) rfl⟩

/-! ## C2: round trip -/

/-- C2 fails on the code: on a handle whose engine accepts writes and fails
reads with `io 5`, `InsertEntryAndQueue` succeeds, the entry key holds the
payload, and `FetchEntryByHash` returns a nil entry with a nil error. -/
theorem FetchEntryByHash_after_insert_read_failure :
    (InsertEntryAndQueue rawDeps readFailingDb hashAB [1, 2, 3] [7] chain01).1 = none ∧
    kvGet (InsertEntryAndQueue rawDeps readFailingDb hashAB [1, 2, 3] [7] chain01).2.lDb.kv
        (entryKey hashAB) = some [1, 2, 3] ∧
    (FetchEntryByHash rawDeps (InsertEntryAndQueue rawDeps readFailingDb hashAB [1, 2, 3] [7]
        chain01).2 hashAB).1 = (none, none) := by
  refine ⟨rfl, rfl, rfl⟩

/-- C2, amended: after a successful `InsertEntryAndQueue` the value under the
entry key is the payload; when the engine read of `FetchEntryByHash` reports
no error, `FetchEntryByHash` returns a nil error and a non-nil entry, the one
`UnmarshalBinary` builds from exactly the payload; when that read reports an
error, it returns a nil entry and a nil error. -/
theorem FetchEntryByHash_after_insert {Entry EntryInfo EBInfo FBBatch : Type}
    (d : Deps Entry EntryInfo EBInfo FBBatch) (db : LevelDb) (entrySha : Hash)
    (binaryEntry : ByteSlice) (entry : Entry) (chainID : ByteSlice)
    (hok : (InsertEntryAndQueue d db entrySha binaryEntry entry chainID).1 = none) :
    kvGet (InsertEntryAndQueue d db entrySha binaryEntry entry chainID).2.lDb.kv
        (entryKey entrySha) = some binaryEntry ∧
    (((InsertEntryAndQueue d db entrySha binaryEntry entry chainID).2.lDb.Get
        (entryKey entrySha)).1.2 = none →
      (FetchEntryByHash d (InsertEntryAndQueue d db entrySha binaryEntry entry chainID).2
        entrySha).1 = (some (d.unmarshalEntry binaryEntry).1, none)) ∧
    (∀ e, ((InsertEntryAndQueue d db entrySha binaryEntry entry chainID).2.lDb.Get
        (entryKey entrySha)).1.2 = some e →
      (FetchEntryByHash d (InsertEntryAndQueue d db entrySha binaryEntry entry chainID).2
        entrySha).1 = (none, none)) := by
  have hkv := kv_after_InsertEntryAndQueue d db entrySha binaryEntry entry chainID hok
  refine ⟨hkv.1, fun hread => ?_, fun e he => ?_⟩
  · rw [FetchEntryByHash_result, Engine.Get_data_of_no_error _ _ hread, hkv.1]
    rfl
  · rw [FetchEntryByHash_result, Engine.Get_data_none_of_error _ _ _ he]
    rfl

/-- C2 amended, at concrete inputs: the empty store without faults, and a
store whose reads fail. -/
theorem FetchEntryByHash_after_insert_witness :
    kvGet (InsertEntryAndQueue rawDeps emptyDb hashAB [1, 2, 3] [7] chain01).2.lDb.kv
        (entryKey hashAB) = some [1, 2, 3] ∧
    (FetchEntryByHash rawDeps (InsertEntryAndQueue rawDeps emptyDb hashAB [1, 2, 3] [7]
        chain01).2 hashAB).1 = (some (rawDeps.unmarshalEntry [1, 2, 3]).1, none) ∧
    (FetchEntryByHash rawDeps (InsertEntryAndQueue rawDeps corruptReadFailingDb hashAB
        [1, 2, 3] [7] chain01).2 hashAB).1 = (none, none) :=
  ⟨(FetchEntryByHash_after_insert rawDeps emptyDb hashAB [1, 2, 3] [7] chain01 rfl).1,
   (FetchEntryByHash_after_insert rawDeps emptyDb hashAB [1, 2, 3] [7] chain01 rfl).2.1 rfl,
   (FetchEntryByHash_after_insert rawDeps corruptReadFailingDb hashAB [1, 2, 3] [7] chain01
      rfl).2.2 (DbError.io 5) rfl⟩

/-! ## C10: not found is not an error -/

/-- C10: when the entry key is absent from the store, `FetchEntryByHash`
returns a nil entry and a nil error. -/
theorem FetchEntryByHash_absent {Entry EntryInfo EBInfo FBBatch : Type}
    (d : Deps Entry EntryInfo EBInfo FBBatch) (db : LevelDb) (entrySha : Hash)
    (habsent : kvGet db.lDb.kv ([byteOfInt8 TBL_ENTRY] ++ entrySha.Bytes) = none) :
    (FetchEntryByHash d db entrySha).1 = (none, none) := by
  rw [FetchEntryByHash_eq]
  unfold entryKey
  rw [habsent]
  cases db.lDb.readFault <;> rfl

/-- C10, at a concrete input: the empty store. -/
theorem FetchEntryByHash_absent_witness :
    (FetchEntryByHash rawDeps emptyDb hashAB).1 = (none, none) :=
  FetchEntryByHash_absent rawDeps emptyDb hashAB rfl

/-! ## C6: read errors -/

/-- C6 fails on the code: on a handle whose engine read reports the I/O error
`io 5`, the three fetchers return a nil error, not `io 5`. -/
theorem read_error_not_propagated :
    (readFailingDb.lDb.Get (entryKey hashAB)).1.2 = some (DbError.io 5) ∧
    (FetchEntryByHash rawDeps readFailingDb hashAB).1.2 = none ∧
    (readFailingDb.lDb.Get (entryInfoKey rawDeps.TBL_ENTRY_INFO hashAB)).1.2
      = some (DbError.io 5) ∧
    (FetchEntryInfoByHash rawDeps readFailingDb hashAB).1.2 = none ∧
    (FetchEntryInfoBranchByHash rawDeps readFailingDb hashAB).1.2 = none := by
  refine ⟨rfl, rfl, rfl, rfl, rfl⟩

/-- C6, amended: when the engine read reports an error, `FetchEntryByHash` and
`FetchEntryInfoByHash` return a nil result with a nil error, and
`FetchEntryInfoBranchByHash` returns the branch with only `EntryHash` set and
a nil error. -/
theorem read_error_gives_empty_result {Entry EntryInfo EBInfo FBBatch : Type}
    (d : Deps Entry EntryInfo EBInfo FBBatch) (db : LevelDb) (entryHash : Hash) (e : DbError) :
    ((db.lDb.Get (entryKey entryHash)).1.2 = some e →
      (FetchEntryByHash d db entryHash).1 = (none, none)) ∧
    ((db.lDb.Get (entryInfoKey d.TBL_ENTRY_INFO entryHash)).1.2 = some e →
      (FetchEntryInfoByHash d db entryHash).1 = (none, none) ∧
      (FetchEntryInfoBranchByHash d db entryHash).1 =
        (⟨entryHash, none, none, none⟩, none)) := by
  constructor
  · intro h
    rw [FetchEntryByHash_result, Engine.Get_data_none_of_error _ _ _ h]
    rfl
  · intro h
    have hinfo : (FetchEntryInfoByHash d db entryHash).1 = (none, none) := by
      rw [FetchEntryInfoByHash_result, Engine.Get_data_none_of_error _ _ _ h]
      rfl
    refine ⟨hinfo, ?_⟩
    rw [FetchEntryInfoBranchByHash_of_none d db entryHash (by rw [hinfo])]

/-- C6 amended, at a concrete input: the handle whose reads fail with `io 5`. -/
theorem read_error_gives_empty_result_witness :
    (FetchEntryByHash rawDeps readFailingDb hashAB).1 = (none, none) ∧
    (FetchEntryInfoByHash rawDeps readFailingDb hashAB).1 = (none, none) ∧
    (FetchEntryInfoBranchByHash rawDeps readFailingDb hashAB).1 =
      (⟨hashAB, none, none, none⟩, none) :=
  ⟨(read_error_gives_empty_result rawDeps readFailingDb hashAB (DbError.io 5)).1 rfl,
   (read_error_gives_empty_result rawDeps readFailingDb hashAB (DbError.io 5)).2 rfl⟩

/-! ## C7: decoding errors -/

/-- C7 fails on the code: the stored bytes fail to decode, both for the entry
and for the entry info, and the fetchers return a nil error. -/
theorem decode_error_not_reported :
    kvGet corruptDb.lDb.kv (entryKey hashAB) = some [255, 0] ∧
    (rawDeps.unmarshalEntry [255, 0]).2 = some (DbError.decode 1) ∧
    (FetchEntryByHash rawDeps corruptDb hashAB).1.2 = none ∧
    kvGet corruptDb.lDb.kv (entryInfoKey rawDeps.TBL_ENTRY_INFO hashAB) = some [255, 1] ∧
    (rawDeps.unmarshalEntryInfo [255, 1]).2 = some (DbError.decode 2) ∧
    (FetchEntryInfoByHash rawDeps corruptDb hashAB).1.2 = none := by
  refine ⟨rfl, rfl, rfl, rfl, rfl, rfl⟩

/-- C7, amended: when the entry key holds bytes that `UnmarshalBinary`
rejects, `FetchEntryByHash` returns a nil error; if the engine read reports no
error the result is the non-nil object `UnmarshalBinary` left behind, so the
outcome differs from not-found `(nil, nil)` in the result only; if the engine
read reports an error the outcome is `(nil, nil)`.  The same holds for
`FetchEntryInfoByHash` on the entry-info key. -/
theorem decode_error_gives_object_and_nil_error {Entry EntryInfo EBInfo FBBatch : Type}
    (d : Deps Entry EntryInfo EBInfo FBBatch) (db : LevelDb) (entryHash : Hash)
    (data : ByteSlice) (e : DbError) :
    (kvGet db.lDb.kv (entryKey entryHash) = some data →
      (d.unmarshalEntry data).2 = some e →
      (FetchEntryByHash d db entryHash).1.2 = none ∧
      ((db.lDb.Get (entryKey entryHash)).1.2 = none →
        (FetchEntryByHash d db entryHash).1 = (some (d.unmarshalEntry data).1, none) ∧
        (FetchEntryByHash d db entryHash).1 ≠ (none, none)) ∧
      (∀ e', (db.lDb.Get (entryKey entryHash)).1.2 = some e' →
        (FetchEntryByHash d db entryHash).1 = (none, none))) ∧
    (kvGet db.lDb.kv (entryInfoKey d.TBL_ENTRY_INFO entryHash) = some data →
      (d.unmarshalEntryInfo data).2 = some e →
      (FetchEntryInfoByHash d db entryHash).1.2 = none ∧
      ((db.lDb.Get (entryInfoKey d.TBL_ENTRY_INFO entryHash)).1.2 = none →
        (FetchEntryInfoByHash d db entryHash).1 =
          (some (d.unmarshalEntryInfo data).1, none) ∧
        (FetchEntryInfoByHash d db entryHash).1 ≠ (none, none)) ∧
      (∀ e', (db.lDb.Get (entryInfoKey d.TBL_ENTRY_INFO entryHash)).1.2 = some e' →
        (FetchEntryInfoByHash d db entryHash).1 = (none, none))) := by
  constructor
  · intro hkv _
    refine ⟨by rw [FetchEntryByHash_result], fun hread => ?_, fun e' he => ?_⟩
    · rw [FetchEntryByHash_result, Engine.Get_data_of_no_error _ _ hread, hkv]
      simp
    · rw [FetchEntryByHash_result, Engine.Get_data_none_of_error _ _ _ he]
      rfl
  · intro hkv _
    refine ⟨by rw [FetchEntryInfoByHash_result], fun hread => ?_, fun e' he => ?_⟩
    · rw [FetchEntryInfoByHash_result, Engine.Get_data_of_no_error _ _ hread, hkv]
      simp
    · rw [FetchEntryInfoByHash_result, Engine.Get_data_none_of_error _ _ _ he]
      rfl

/-- C7 amended, at concrete inputs: the handle holding undecodable bytes, with
reads that succeed and with reads that fail. -/
theorem decode_error_gives_object_and_nil_error_witness :
    ((FetchEntryByHash rawDeps corruptDb hashAB).1 = (some [255, 0], none) ∧
      (FetchEntryByHash rawDeps corruptDb hashAB).1 ≠ (none, none)) ∧
    ((FetchEntryInfoByHash rawDeps corruptDb hashAB).1 = (some [255, 1], none) ∧
      (FetchEntryInfoByHash rawDeps corruptDb hashAB).1 ≠ (none, none)) ∧
    (FetchEntryByHash rawDeps corruptReadFailingDb hashAB).1 = (none, none) ∧
    (FetchEntryInfoByHash rawDeps corruptReadFailingDb hashAB).1 = (none, none) :=
  ⟨((decode_error_gives_object_and_nil_error rawDeps corruptDb hashAB [255, 0]
      (DbError.decode 1)).1 rfl rfl).2.1 rfl,
   ((decode_error_gives_object_and_nil_error rawDeps corruptDb hashAB [255, 1]
      (DbError.decode 2)).2 rfl rfl).2.1 rfl,
   ((decode_error_gives_object_and_nil_error rawDeps corruptReadFailingDb hashAB [255, 0]
      (DbError.decode 1)).1 rfl rfl).2.2 (DbError.io 5) rfl,
   ((decode_error_gives_object_and_nil_error rawDeps corruptReadFailingDb hashAB [255, 1]
      (DbError.decode 2)).2 rfl rfl).2.2 (DbError.io 5) rfl⟩

/-! ## C8: branch short-circuit -/

/-- C8: with no EntryInfo record for the hash, `FetchEntryInfoBranchByHash`
returns a nil error and the branch with `EntryHash` set and `EntryInfo`,
`EBInfo`, `FBBatch` unset; the handle afterwards differs from the one before
only by the single logged read of the EntryInfo key, whatever the sibling
fetchers `FetchEBInfoByHash` and `FetchFBBatchByHash` would do. -/
theorem FetchEntryInfoBranchByHash_short_circuit {Entry EntryInfo EBInfo FBBatch : Type}
    (d : Deps Entry EntryInfo EBInfo FBBatch) (db : LevelDb) (entryHash : Hash)
    (habsent : kvGet db.lDb.kv ([byteOfInt8 d.TBL_ENTRY_INFO] ++ entryHash.Bytes) = none) :
    FetchEntryInfoBranchByHash d db entryHash =
      ((⟨entryHash, none, none, none⟩, none),
       ⟨⟨db.lDb.kv, db.lDb.readFault, db.lDb.writeFault,
         db.lDb.gets ++ [[byteOfInt8 d.TBL_ENTRY_INFO] ++ entryHash.Bytes]⟩, db.lbatch⟩) := by
  have hres : (FetchEntryInfoByHash d db entryHash).1.1 = none := by
    rw [FetchEntryInfoByHash_eq]
    unfold entryInfoKey
    rw [habsent]
    cases db.lDb.readFault <;> rfl
  rw [FetchEntryInfoBranchByHash_of_none d db entryHash hres, FetchEntryInfoByHash_eq]
  rfl

/-- C8, at a concrete input: on the empty store the only read logged is the
EntryInfo read, although the sibling fetchers of `rawDeps` log every read they
make. -/
theorem FetchEntryInfoBranchByHash_short_circuit_witness :
    FetchEntryInfoBranchByHash rawDeps emptyDb hashAB =
      ((⟨hashAB, none, none, none⟩, none),
       ⟨⟨[], none, none, [[10] ++ hashAB.Bytes]⟩, none⟩) :=
  FetchEntryInfoBranchByHash_short_circuit rawDeps emptyDb hashAB rfl

/-! ## C3: layout of the queue key -/

/-- C3: the last operation `InsertEntryAndQueue` stages is the put of the key
`[TBL_ENTRY_QUEUE] ++ chainID ++ bigEndianUint64(timestamp) ++ entryHash`, the
tag byte being 1; for the chain id of 32 bytes `0x01`, timestamp 1700000000 and
hash of 32 bytes `0xAB` this is the 73-byte key
`01 | 01 x 32 | 00 00 00 00 65 53 F1 00 | AB x 32`. -/
theorem queueKey_layout {Entry EntryInfo EBInfo FBBatch : Type}
    (d : Deps Entry EntryInfo EBInfo FBBatch) (db : LevelDb) (entrySha : Hash)
    (binaryEntry : ByteSlice) (entry : Entry) (chainID : ByteSlice) :
    (stagedBatch d db entrySha binaryEntry entry chainID).getLast? =
      some (BatchOp.put
        ([byteOfInt8 TBL_ENTRY_QUEUE] ++ chainID ++
          bigEndianUint64 (uint64OfInt64 (d.TimeStamp entry)) ++ entrySha.Bytes)
        [byteOfInt8 d.STATUS_IN_QUEUE]) ∧
    byteOfInt8 TBL_ENTRY_QUEUE = 1 ∧
    queueKey chain01 1700000000 hashAB =
      [1] ++ List.replicate 32 1 ++ [0x00, 0x00, 0x00, 0x00, 0x65, 0x53, 0xF1, 0x00] ++
        List.replicate 32 0xAB ∧
    (queueKey chain01 1700000000 hashAB).length = 73 := by
  refine ⟨?_, rfl, rfl, rfl⟩
  simp [stagedBatch, queueKey, putUint64BE_eq_bigEndianUint64]

/-! ## C4: order of queue keys -/

/-- C4 fails on the code: for the timestamps `-1 < 0` the key of `-1` is the
greater one, since `uint64(-1)` is the largest 64-bit value. -/
theorem queueKey_order_negative_timestamp :
    isInt64 (-1) ∧ isInt64 0 ∧ (-1 : Int) < 0 ∧
    hashAB.Bytes.length = hashAB.Bytes.length ∧
    bytesCompare (queueKey chain01 (-1) hashAB) (queueKey chain01 0 hashAB) = 1 := by
  refine ⟨by decide, by decide, by decide, rfl, ?_⟩
  simp only [queueKey, List.append_assoc]
  rw [bytesCompare_append_left, bytesCompare_append_left]
  rfl

/-- C4, amended: for `int64` timestamps `t1 < t2` of the same sign (both
non-negative or both negative) the queue key of `(C, t1, H1)` is strictly below
the queue key of `(C, t2, H2)` in byte-lexicographic order; when `t1` is
negative and `t2` is not, it is strictly above. -/
theorem queueKey_order_same_sign (chainID : ByteSlice) (t1 t2 : Int) (h1 h2 : Hash)
    (ht1 : isInt64 t1) (ht2 : isInt64 t2) (hlt : t1 < t2) :
    ((0 ≤ t1 ∨ t2 < 0) →
      bytesCompare (queueKey chainID t1 h1) (queueKey chainID t2 h2) = -1) ∧
    ((t1 < 0 ∧ 0 ≤ t2) →
      bytesCompare (queueKey chainID t1 h1) (queueKey chainID t2 h2) = 1) := by
  simp only [queueKey, List.append_assoc]
  rw [bytesCompare_append_left, bytesCompare_append_left]
  constructor
  · intro hsign
    exact bytesCompare_putUint64BE_lt _ _ _ _
      (uint64OfInt64_lt_of_same_sign t1 t2 ht1 ht2 hlt hsign) (uint64OfInt64_lt t2)
  · intro hsign
    exact bytesCompare_putUint64BE_gt _ _ _ _
      (uint64OfInt64_gt_of_sign_change t1 t2 ht1 ht2 hsign.1 hsign.2) (uint64OfInt64_lt t1)

/-- C4 amended, at concrete inputs: two non-negative timestamps, and two
negative ones. -/
theorem queueKey_order_same_sign_witness :
    bytesCompare (queueKey chain01 1700000000 hashAB) (queueKey chain01 1700000001 hashAB)
      = -1 ∧
    bytesCompare (queueKey chain01 (-5) hashAB) (queueKey chain01 (-2) hashAB) = -1 :=
  ⟨(queueKey_order_same_sign chain01 1700000000 1700000001 hashAB hashAB
      (by decide) (by decide) (by decide)).1 (Or.inl (by decide)),
   (queueKey_order_same_sign chain01 (-5) (-2) hashAB hashAB
      (by decide) (by decide) (by decide)).1 (Or.inr (by decide))⟩

/-! ## C5: injectivity of the key encoding -/

/-- C5 fails on the code: the chain id of 32 zero bytes with the hash of 32
zero bytes, and the chain id of 31 zero bytes with the hash of 33 zero bytes,
are different logical keys with the same encoded key (timestamp 0). -/
theorem encode_collision :
    LogicalKey.queue (List.replicate 32 0) 0 ⟨List.replicate 32 0⟩ ≠
      LogicalKey.queue (List.replicate 31 0) 0 ⟨List.replicate 33 0⟩ ∧
    (LogicalKey.queue (List.replicate 32 0) 0 ⟨List.replicate 32 0⟩).encode =
      (LogicalKey.queue (List.replicate 31 0) 0 ⟨List.replicate 33 0⟩).encode := by
  refine ⟨fun h => ?_, rfl⟩
  have hlen := congrArg LogicalKey.chainLen h
  simp [LogicalKey.chainLen] at hlen

/-- C5, amended: when two logical keys have equal encoded keys they belong to
the same table (no entry key equals any queue key); two entry keys then have
the same hash; two queue keys whose chain ids have the same length (or whose
entry hashes have the same length) then have the same chain id, timestamp and
entry hash. -/
theorem encode_injective_of_chainLen (k1 k2 : LogicalKey) (hw1 : k1.wellTyped)
    (hw2 : k2.wellTyped) (heq : k1.encode = k2.encode) :
    match k1, k2 with
    | .entry h, .entry h' => h = h'
    | .queue c t h, .queue c' t' h' =>
      (c.length = c'.length ∨ h.Bytes.length = h'.Bytes.length) →
        c = c' ∧ t = t' ∧ h = h'
    | .entry _, .queue _ _ _ => False
    | .queue _ _ _, .entry _ => False := by
  cases k1 with
  | entry h =>
    cases k2 with
    | entry h' =>
      simp only [LogicalKey.encode, entryKey, List.singleton_append, List.cons.injEq,
        true_and] at heq
      cases h; cases h'; simp only at heq; simp only [heq]
    | queue c' t' h' => exact absurd heq (entryKey_ne_queueKey h h' c' t')
  | queue c t h =>
    cases k2 with
    | entry h' => exact absurd heq.symm (entryKey_ne_queueKey h' h c t)
    | queue c' t' h' =>
      intro hlen
      have htotal := congrArg List.length heq
      simp only [LogicalKey.encode, queueKey, List.length_append, putUint64BE_length,
        List.length_singleton] at htotal
      exact queueKey_injective c c' t t' h h' hw1 hw2 (by omega) heq

/-- C5 amended, at concrete inputs: two queue keys, and two entry keys. -/
theorem encode_injective_of_chainLen_witness :
    (chain01 = chain01 ∧ (1700000000 : Int) = 1700000000 ∧ hashAB = hashAB) ∧
    hashAB = hashAB :=
  ⟨encode_injective_of_chainLen (LogicalKey.queue chain01 1700000000 hashAB)
    (LogicalKey.queue chain01 1700000000 hashAB) (by decide) (by decide) rfl (Or.inl rfl),
   encode_injective_of_chainLen (LogicalKey.entry hashAB) (LogicalKey.entry hashAB)
    trivial trivial rfl⟩

/-! ## C9: version gate -/

/-- C9: when the directory step passes and the version `openDB` obtains is
neither 0 nor 1, `openDB` returns the unsupported-version error and no handle,
and the calls it made are the directory call and the opening of the version
file: `leveldb.OpenFile` is not among them. -/
theorem openDB_version_gate (os : Os) (dbpath : String) (create : Bool)
    (hdir : (dirStep os dbpath create).1 = none)
    (h0 : (readVersion os dbpath create).1 ≠ 0)
    (h1 : (readVersion os dbpath create).1 ≠ 1) :
    openDB os dbpath create =
      ((none, some (DbError.unsupportedVersion (readVersion os dbpath create).1)),
       (dirStep os dbpath create).2 ++ [OsCall.Open (dbpath ++ ".ver")]) ∧
    ∀ c ∈ (openDB os dbpath create).2, c.isOpenFile = false := by
  have hopen : openDB os dbpath create =
      ((none, some (DbError.unsupportedVersion (readVersion os dbpath create).1)),
       (dirStep os dbpath create).2 ++ [OsCall.Open (dbpath ++ ".ver")]) := by
    unfold openDB
    generalize dirStep os dbpath create = ds at hdir
    rcases ds with ⟨dirErr, calls⟩
    simp only at hdir
    subst hdir
    generalize readVersion os dbpath create = rv at h0 h1
    rcases rv with ⟨v, need⟩
    simp only at h0 h1
    simp [versionOptions, h0, h1]
  refine ⟨hopen, ?_⟩
  rw [hopen]
  intro c hc
  simp only [dirStep, List.mem_append, List.mem_singleton] at hc
  rcases hc with hc | hc
  · cases create <;> simp at hc <;> subst hc <;> rfl
  · subst hc; rfl

/-- C9, at a concrete input: a version file holding 99. -/
theorem openDB_version_gate_witness :
    openDB osVersion99 "/data/factom" false =
      ((none, some (DbError.unsupportedVersion 99)),
       [OsCall.Stat "/data/factom", OsCall.Open "/data/factom.ver"]) ∧
    ∀ c ∈ (openDB osVersion99 "/data/factom" false).2, c.isOpenFile = false :=
  openDB_version_gate osVersion99 "/data/factom" false rfl (by decide) (by decide)

end ldb
